import Mathlib

/-!
Verification development for the bzip2 command-line tool
(`cmd/bzip2/main.go`): a shallow embedding of the per-file processing
function `processFile`, the output-path derivation, the collision /
overwrite policy, the source-removal finalisation step, the directory
traversal (`filepath.Walk` as used by `main`) and the batch loop in
`main`, together with theorems about the behaviour of these functions.

Modelling conventions:
- The filesystem is a finite association list from path strings to
  entries (regular file with byte content, directory, or other
  non-regular entry such as a device).  `openFails` / `removeFails`
  list paths on which `os.Open` / `os.Remove` fail (e.g. permission
  errors) even though the entry exists.
- Go strings are modelled as Lean `String`; the byte-level operations
  `strings.HasSuffix`, `strings.SplitN`, `strings.Join` and
  `path.Split` are reimplemented over the character list.  All inputs
  considered are such that byte positions and character positions
  agree on the comparisons the code performs.
- The external bzip2 codec (`github.com/dsnet/compress/bzip2`) is an
  external collaborator and is abstracted as a `Codec` record: `encode`
  always succeeds, `decode` returns `none` on a corrupt stream.
- The producer/consumer pipe is sequentialised: the consumer observes
  the producer's error (as the Go code guarantees via
  `CloseWithError`).  On a pipeline failure after `os.Create`, the
  partially written output is modelled as the created (empty) file;
  only its presence matters for the stated properties.
-/

/-- Error kinds, one per distinct error return in `processFile` / `main`. -/
inductive PErr
  | stdoutSuffixConflict
  | stdoutForceConflict
  | stdoutKeepConflict
  | stdinNeedsStdout
  | stdinSuffixNotNeeded
  | sourceNotFound
  | sourceIsDirectory
  | emptySuffix
  | suffixMismatch
  | cantStripSuffix
  | outputExists
  | outputIsDirectory
  | removeFailed
  | openFailed
  | testFailed
  | pipeFailure
  | sourceRemovalFailed
  | directoryNotRecursed
  | walkError
  deriving DecidableEq, Repr

/-- A filesystem entry: regular file with contents, directory, or another
non-regular entry (device node etc.). -/
inductive Entry
  | regular (content : List Nat)
  | directory
  | device
  deriving DecidableEq, Repr

/-- The filesystem state: an association list of paths to entries, plus
the sets of paths on which `os.Open` resp. `os.Remove` fail despite the
entry existing (permission-style faults). -/
structure FS where
  entries : List (String × Entry)
  openFails : List String
  removeFails : List String
  deriving DecidableEq, Repr

/-- `os.Lstat`/`os.Stat`: look up the entry at a path. -/
def FS.lookup (fs : FS) (p : String) : Option Entry :=
  match fs.entries.find? (fun e => e.1 == p) with
  | some e => some e.2
  | none => none

/-- Remove a binding (used to model a successful `os.Remove`). -/
def FS.eraseP (fs : FS) (p : String) : FS :=
  { fs with entries := fs.entries.filter (fun e => e.1 != p) }

/-- `os.Create`: (re)bind a path to a regular file. -/
def FS.insert (fs : FS) (p : String) (ent : Entry) : FS :=
  { fs with entries := (p, ent) :: fs.entries.filter (fun e => e.1 != p) }

/-- The resolved command-line configuration (the global flag variables of
`main.go`).  `sSetByUser` models `setByUser ("S")`. -/
structure Config where
  stdout : Bool
  decompress : Bool
  force : Bool
  keep : Bool
  test : Bool
  recursive : Bool
  suffix : String
  level : Nat
  sSetByUser : Bool
  deriving DecidableEq, Repr

/-- The external transform capability (`bzip2.NewWriter` / `bzip2.NewReader`):
`encode level bytes` always succeeds, `decode bytes` is `none` exactly when
the stream is corrupt (structural or checksum error). -/
structure Codec where
  encode : Nat → List Nat → List Nat
  decode : List Nat → Option (List Nat)

deriving instance DecidableEq for Except

/-- `strings.HasSuffix s suf` (main.go line 171). -/
def goHasSuffix (s suf : String) : Bool :=
  decide (suf.toList.length ≤ s.toList.length ∧
    s.toList.drop (s.toList.length - suf.toList.length) = suf.toList)

/-- `path.Split`: split after the final slash into directory and file name. -/
def goPathSplit (s : String) : String × String :=
  let r := s.toList.reverse
  (String.mk ((r.dropWhile (fun c => c ≠ '/')).reverse),
   String.mk ((r.takeWhile (fun c => c ≠ '/')).reverse))

/-- `strings.SplitN s "." n` on the character list (main.go line 173):
at most `n` parts, the last part being the unsplit remainder. -/
def goSplitN : List Char → Nat → List (List Char)
  | _, 0 => []
  | cs, 1 => [cs]
  | cs, Nat.succ (Nat.succ n) =>
    match cs.dropWhile (fun c => c ≠ '.') with
    | [] => [cs]
    | _ :: rest => cs.takeWhile (fun c => c ≠ '.') :: goSplitN rest (Nat.succ n)

/-- `strings.Join parts "."` on character lists (main.go line 174). -/
def joinDot : List (List Char) → List Char
  | [] => []
  | [x] => x
  | x :: xs => x ++ '.' :: joinDot xs

/-- Output path derivation (main.go lines 169-184): for decompression the
final dot-component of the base name is stripped after checking the
`"." ++ suffix` suffix and the length guard; for compression the suffix is
appended. -/
def deriveOutPath (dec : Bool) (suffix : String) (inFilePath : String) :
    Except PErr String :=
  if dec then
    let sp := goPathSplit inFilePath
    let outFileDir := sp.1
    let outFileName := sp.2
    if goHasSuffix outFileName ("." ++ suffix) then
      if outFileName.toList.length > ("." ++ suffix).toList.length then
        let nstr := goSplitN outFileName.toList outFileName.toList.length
        let estr := joinDot nstr.dropLast
        Except.ok (outFileDir ++ String.mk estr)
      else Except.error PErr.cantStripSuffix
    else Except.error PErr.suffixMismatch
  else Except.ok (inFilePath ++ "." ++ suffix)

/-- Collision / overwrite policy (main.go lines 187-199): if the output
path exists, reject unless force is set; with force, reject directories,
otherwise `os.Remove` the entry. -/
def collisionCheck (force : Bool) (fs : FS) (outFilePath : String) :
    Except PErr FS :=
  match fs.lookup outFilePath with
  | none => Except.ok fs
  | some ent =>
    if !force then Except.error PErr.outputExists
    else if ent = Entry.directory then Except.error PErr.outputIsDirectory
    else if fs.removeFails.contains outFilePath then Except.error PErr.removeFailed
    else Except.ok (fs.eraseP outFilePath)

/-- Output resolution for derived-file mode (main.go lines 163-200):
empty-suffix check, path derivation, then the collision check.  Returns
the output path and the filesystem after any force-removal. -/
def resolveOut (cfg : Config) (fs : FS) (inFilePath : String) :
    Except PErr (String × FS) :=
  if cfg.suffix = "" then Except.error PErr.emptySuffix
  else
    match deriveOutPath cfg.decompress cfg.suffix inFilePath with
    | Except.error e => Except.error e
    | Except.ok out =>
      match collisionCheck cfg.force fs out with
      | Except.error e => Except.error e
      | Except.ok fs1 => Except.ok (out, fs1)

/-- The producer side of the pipe: open the source and read its bytes
(stdin bytes for `"-"`). -/
def sourceBytes (stdinBytes : List Nat) (fs : FS) (inFilePath : String) :
    Except PErr (List Nat) :=
  if inFilePath = "-" then Except.ok stdinBytes
  else if fs.openFails.contains inFilePath then Except.error PErr.openFailed
  else
    match fs.lookup inFilePath with
    | some (Entry.regular c) => Except.ok c
    | some _ => Except.error PErr.openFailed
    | none => Except.error PErr.openFailed

/-- The transform applied inside the pipe: decode (may fail on corrupt
input) or encode at the configured level. -/
def transform (cdc : Codec) (cfg : Config) (src : List Nat) :
    Except PErr (List Nat) :=
  if cfg.decompress then
    match cdc.decode src with
    | some d => Except.ok d
    | none => Except.error PErr.pipeFailure
  else Except.ok (cdc.encode cfg.level src)

/-- The pipeline stage (main.go lines 204-322): for a derived-file
destination, `os.Create` first binds the output to an empty regular file;
a producer or transform error then surfaces to the consumer and the
created file is left in place; on success the output holds the
transformed bytes.  For the stdout destination no filesystem change is
made. -/
def runPipe (cdc : Codec) (cfg : Config) (stdinBytes : List Nat) (fs : FS)
    (inFilePath : String) (outPath : Option String) :
    Except PErr Unit × FS :=
  match outPath with
  | none =>
    match sourceBytes stdinBytes fs inFilePath with
    | Except.error e => (Except.error e, fs)
    | Except.ok src =>
      match transform cdc cfg src with
      | Except.error e => (Except.error e, fs)
      | Except.ok _ => (Except.ok (), fs)
  | some out =>
    let fs1 := fs.insert out (Entry.regular [])
    match sourceBytes stdinBytes fs inFilePath with
    | Except.error e => (Except.error e, fs1)
    | Except.ok src =>
      match transform cdc cfg src with
      | Except.error e => (Except.error e, fs1)
      | Except.ok outBytes => (Except.ok (), fs1.insert out (Entry.regular outBytes))

/-- `os.Remove` on the source path: fails on a remove-fault or a missing
entry, otherwise erases the binding. -/
def removeSource (fs : FS) (p : String) : Except PErr FS :=
  if fs.removeFails.contains p then Except.error PErr.sourceRemovalFailed
  else if (fs.lookup p).isNone then Except.error PErr.sourceRemovalFailed
  else Except.ok (fs.eraseP p)

/-- Finalisation (main.go lines 325-330): remove the original file when
not writing to stdout, not keeping, and not reading stdin; a removal
failure fails the job. -/
def finalize (cfg : Config) (fs : FS) (inFilePath : String) :
    Except PErr Unit × FS :=
  if !cfg.stdout && !cfg.keep && inFilePath ≠ "-" then
    match removeSource fs inFilePath with
    | Except.error e => (Except.error e, fs)
    | Except.ok fs1 => (Except.ok (), fs1)
  else (Except.ok (), fs)

/-- Conflicting-flag checks (main.go lines 98-106), in source order. -/
def checkConflicts (cfg : Config) : Option PErr :=
  if cfg.stdout && cfg.sSetByUser then some PErr.stdoutSuffixConflict
  else if cfg.stdout && cfg.force then some PErr.stdoutForceConflict
  else if cfg.stdout && cfg.keep then some PErr.stdoutKeepConflict
  else none

/-- Test mode (main.go lines 111-139): open the input directly and decode
to a discard sink; the filesystem is never changed. -/
def runTest (cdc : Codec) (stdinBytes : List Nat) (fs : FS)
    (inFilePath : String) : Except PErr Unit :=
  if inFilePath = "-" then
    match cdc.decode stdinBytes with
    | some _ => Except.ok ()
    | none => Except.error PErr.testFailed
  else if fs.openFails.contains inFilePath then Except.error PErr.openFailed
  else
    match fs.lookup inFilePath with
    | some (Entry.regular c) =>
      match cdc.decode c with
      | some _ => Except.ok ()
      | none => Except.error PErr.testFailed
    | some _ => Except.error PErr.testFailed
    | none => Except.error PErr.sourceNotFound

/-- Pipe stage followed by finalisation, as executed after resolution. -/
def pipeAndFinalize (cdc : Codec) (cfg : Config) (stdinBytes : List Nat)
    (fs : FS) (inFilePath : String) (outPath : Option String) :
    Except PErr Unit × FS :=
  match runPipe cdc cfg stdinBytes fs inFilePath outPath with
  | (Except.error e, fs2) => (Except.error e, fs2)
  | (Except.ok _, fs2) => finalize cfg fs2 inFilePath

/-- `processFile` (main.go lines 96-333): conflicting-flag checks, test
mode, stdin checks, `os.Lstat` of the source, output resolution for
derived-file mode, the pipeline, and source removal. -/
def processFile (cdc : Codec) (cfg : Config) (stdinBytes : List Nat)
    (fs : FS) (inFilePath : String) : Except PErr Unit × FS :=
  match checkConflicts cfg with
  | some e => (Except.error e, fs)
  | none =>
    if cfg.test then (runTest cdc stdinBytes fs inFilePath, fs)
    else if inFilePath = "-" then
      if !cfg.stdout then (Except.error PErr.stdinNeedsStdout, fs)
      else if cfg.sSetByUser then (Except.error PErr.stdinSuffixNotNeeded, fs)
      else pipeAndFinalize cdc cfg stdinBytes fs "-" none
    else
      match fs.lookup inFilePath with
      | none => (Except.error PErr.sourceNotFound, fs)
      | some ent =>
        if ent = Entry.directory then (Except.error PErr.sourceIsDirectory, fs)
        else if cfg.stdout then
          pipeAndFinalize cdc cfg stdinBytes fs inFilePath none
        else
          match resolveOut cfg fs inFilePath with
          | Except.error e => (Except.error e, fs)
          | Except.ok (out, fs1) =>
            pipeAndFinalize cdc cfg stdinBytes fs1 inFilePath (some out)

/- A directory tree as seen by `filepath.Walk`: file leaves (with an
lstat fault flag) and directories (with a read-dir fault flag). -/
mutual
/-- A node of a directory tree as seen by the walk. -/
inductive FTree
  | file (path : String) (statErr : Bool)
  | dir (path : String) (readErr : Bool) (children : FForest)
inductive FForest
  | nil
  | cons (t : FTree) (ts : FForest)
end

/-- One event produced during a walk: a file job, or an error reported for
a sub-path (the walk callback logs it and continues). -/
inductive WalkEvent
  | job (path : String)
  | errReport (path : String)
  deriving DecidableEq, Repr

/- filepath.Walk as driven by the callback in main.go lines 430-443:
an entry with a traversal error is reported once and its subtree is
skipped; a directory itself yields no job; files yield jobs in
depth-first order. -/
mutual
/-- Walk one tree node (see the comment above). -/
def FTree.walk : FTree → List WalkEvent
  | FTree.file p e => if e then [WalkEvent.errReport p] else [WalkEvent.job p]
  | FTree.dir p e cs => if e then [WalkEvent.errReport p] else FForest.walkF cs
/-- Walk a forest of siblings in order. -/
def FForest.walkF : FForest → List WalkEvent
  | FForest.nil => []
  | FForest.cons t ts => FTree.walk t ++ FForest.walkF ts
end

/- The regular-file paths beneath a tree, in depth-first order. -/
mutual
/-- The regular-file paths of one node, in depth-first order. -/
def FTree.filePaths : FTree → List String
  | FTree.file p _ => [p]
  | FTree.dir _ _ cs => FForest.filePathsF cs
/-- The regular-file paths of a forest, in depth-first order. -/
def FForest.filePathsF : FForest → List String
  | FForest.nil => []
  | FForest.cons t ts => FTree.filePaths t ++ FForest.filePathsF ts
end

/- Whether a tree contains no traversal faults. -/
mutual
/-- Whether a tree node contains no traversal faults. -/
def FTree.errFree : FTree → Bool
  | FTree.file _ e => !e
  | FTree.dir _ e cs => !e && FForest.errFreeF cs
/-- Whether a forest contains no traversal faults. -/
def FForest.errFreeF : FForest → Bool
  | FForest.nil => true
  | FForest.cons t ts => FTree.errFree t && FForest.errFreeF ts
end

/-- Run the jobs / error reports produced by a walk, in order, threading
the filesystem (main.go lines 430-443). -/
def runWalkEvents (cdc : Codec) (cfg : Config) (stdinBytes : List Nat) :
    FS → List WalkEvent → List (String × Except PErr Unit) × FS
  | fs, [] => ([], fs)
  | fs, WalkEvent.job p :: rest =>
    let r := processFile cdc cfg stdinBytes fs p
    let os := runWalkEvents cdc cfg stdinBytes r.2 rest
    ((p, r.1) :: os.1, os.2)
  | fs, WalkEvent.errReport p :: rest =>
    let os := runWalkEvents cdc cfg stdinBytes fs rest
    ((p, Except.error PErr.walkError) :: os.1, os.2)

/-- One iteration of the loop in `main` (lines 412-458): dispatch on the
stdin marker, `os.Stat` failure, directory (recursive or not) or plain
file.  `forest` gives the directory tree walked by `filepath.Walk` when
the argument is a directory. -/
def runArg (cdc : Codec) (cfg : Config) (forest : String → FTree)
    (stdinBytes : List Nat) (fs : FS) (arg : String) :
    List (String × Except PErr Unit) × FS :=
  if arg = "-" then
    let r := processFile cdc cfg stdinBytes fs "-"
    ([("-", r.1)], r.2)
  else
    match fs.lookup arg with
    | none => ([(arg, Except.error PErr.sourceNotFound)], fs)
    | some Entry.directory =>
      if cfg.recursive then
        runWalkEvents cdc cfg stdinBytes fs (FTree.walk (forest arg))
      else ([(arg, Except.error PErr.directoryNotRecursed)], fs)
    | some _ =>
      let r := processFile cdc cfg stdinBytes fs arg
      ([(arg, r.1)], r.2)

/-- The whole argument loop of `main`, collecting every outcome. -/
def runArgs (cdc : Codec) (cfg : Config) (forest : String → FTree)
    (stdinBytes : List Nat) :
    FS → List String → List (String × Except PErr Unit) × FS
  | fs, [] => ([], fs)
  | fs, a :: rest =>
    let o := runArg cdc cfg forest stdinBytes fs a
    let os := runArgs cdc cfg forest stdinBytes o.2 rest
    (o.1 ++ os.1, os.2)

/-- Result of a whole run of `main`: a fatal configuration abort (before
any file is processed), or the list of per-file outcomes. -/
inductive BatchResult
  | fatal (fs : FS)
  | done (outcomes : List (String × Except PErr Unit)) (fs : FS)
  deriving DecidableEq, Repr

/-- `main` (lines 336-465): the compression-level validation aborts the
run before the loop; an empty argument list defaults to the stdin
marker; then every argument is processed in order. -/
def runBatch (cdc : Codec) (cfg : Config) (forest : String → FTree)
    (stdinBytes : List Nat) (fs : FS) (args : List String) : BatchResult :=
  if cfg.level < 1 ∨ cfg.level > 9 then BatchResult.fatal fs
  else
    let files := if args = [] then ["-"] else args
    let r := runArgs cdc cfg forest stdinBytes fs files
    BatchResult.done r.1 r.2

/-- Whether an outcome is a success. -/
def outcomeOk : Except PErr Unit → Bool
  | Except.ok _ => true
  | Except.error _ => false

/-- The process exit code: `log.Fatalf` exits 1 on a fatal configuration
error; otherwise 1 iff any per-file outcome failed (lines 462-464). -/
def batchExitCode : BatchResult → Nat
  | BatchResult.fatal _ => 1
  | BatchResult.done os _ => if os.all (fun o => outcomeOk o.2) then 0 else 1

/-- Projection: was the run aborted by a fatal configuration error. -/
def BatchResult.isFatal : BatchResult → Bool
  | BatchResult.fatal _ => true
  | BatchResult.done _ _ => false

/-- Projection: the outcomes of a completed run. -/
def BatchResult.outcomes : BatchResult → List (String × Except PErr Unit)
  | BatchResult.fatal _ => []
  | BatchResult.done os _ => os

/-- Projection: the final filesystem. -/
def BatchResult.finalFS : BatchResult → FS
  | BatchResult.fatal fs => fs
  | BatchResult.done _ fs => fs

/-- The spec-side path derivation for decompression, used to compare the
code against the specification text.  Modelled from the spec: "output =
source path with the trailing \x22.\x22 + suffix segment stripped". -/
def specStripSuffix (p suffix : String) : Option String :=
  let cs := p.toList
  let tail := '.' :: suffix.toList
  if tail.isSuffixOf cs then
    some (String.mk (cs.take (cs.length - tail.length)))
  else none

/-- The identity codec: a concrete `Codec` for witnesses. -/
def idCodec : Codec where
  encode := fun _ b => b
  decode := fun b => some b

/-- A codec whose decoder rejects every stream, for corrupt-input cases. -/
def badCodec : Codec where
  encode := fun _ b => b
  decode := fun _ => none

/-! ### Helper lemmas about the split/join string operations -/

/-- The unbounded split of a character list at every dot (the behaviour of
`strings.SplitN` when the bound exceeds the number of parts). -/
def fullSplitDot : List Char → List (List Char)
  | [] => [[]]
  | c :: rest =>
    if c = '.' then [] :: fullSplitDot rest
    else
      match fullSplitDot rest with
      | [] => [[c]]
      | a :: as => (c :: a) :: as

theorem fullSplitDot_ne_nil (cs : List Char) : fullSplitDot cs ≠ [] := by
  induction cs with
  | nil => simp [fullSplitDot]
  | cons c rest ih =>
    by_cases h : c = '.'
    · simp [fullSplitDot, h]
    · simp only [fullSplitDot, if_neg h]
      rcases hr : fullSplitDot rest with _ | ⟨a, as⟩
      · simp
      · simp

theorem fullSplitDot_of_not_mem (cs : List Char) (h : '.' ∉ cs) :
    fullSplitDot cs = [cs] := by
  induction cs with
  | nil => simp [fullSplitDot]
  | cons c rest ih =>
    have hc : c ≠ '.' := by
      intro hc; exact h (by simp [hc])
    have hr : '.' ∉ rest := fun hm => h (List.mem_cons_of_mem _ hm)
    simp [fullSplitDot, hc, ih hr]

theorem fullSplitDot_append (xs ys : List Char) :
    fullSplitDot (xs ++ '.' :: ys) = fullSplitDot xs ++ fullSplitDot ys := by
  induction xs with
  | nil => simp [fullSplitDot]
  | cons c rest ih =>
    by_cases h : c = '.'
    · simp [fullSplitDot, h, ih]
    · simp only [List.cons_append, fullSplitDot, if_neg h]
      rw [List.append_eq, ih]
      rcases hr : fullSplitDot rest with _ | ⟨a, as⟩
      · exact absurd hr (fullSplitDot_ne_nil rest)
      · simp

theorem joinDot_cons (x : List Char) (xs : List (List Char)) (h : xs ≠ []) :
    joinDot (x :: xs) = x ++ '.' :: joinDot xs := by
  rcases xs with _ | ⟨y, ys⟩
  · exact absurd rfl h
  · rfl

theorem joinDot_fullSplitDot (cs : List Char) :
    joinDot (fullSplitDot cs) = cs := by
  induction cs with
  | nil => simp [fullSplitDot, joinDot]
  | cons c rest ih =>
    by_cases h : c = '.'
    · rw [fullSplitDot, if_pos h,
        joinDot_cons _ _ (fullSplitDot_ne_nil rest), ih, h]
      simp
    · rw [fullSplitDot, if_neg h]
      rcases hr : fullSplitDot rest with _ | ⟨a, as⟩
      · exact absurd hr (fullSplitDot_ne_nil rest)
      · rw [hr] at ih
        rcases as with _ | ⟨b, bs⟩
        · simp only [joinDot] at ih ⊢
          rw [ih]
        · rw [joinDot_cons _ _ (by simp)] at ih
          rw [joinDot_cons _ _ (by simp), List.cons_append, ih]

theorem dropWhile_head_false {p : Char → Bool} {cs : List Char} :
    ∀ {x : Char} {xs : List Char}, List.dropWhile p cs = x :: xs → p x = false := by
  induction cs with
  | nil => intro x xs h; simp [List.dropWhile] at h
  | cons c rest ih =>
    intro x xs h
    by_cases hc : p c
    · rw [List.dropWhile_cons_of_pos hc] at h
      exact ih h
    · rw [List.dropWhile_cons_of_neg hc] at h
      cases h
      exact Bool.eq_false_iff.mpr hc

theorem goSplitN_eq_full (n : Nat) :
    ∀ cs : List Char, cs.count '.' < n → goSplitN cs n = fullSplitDot cs := by
  induction n with
  | zero => intro cs h; exact absurd h (Nat.not_lt_zero _)
  | succ n ih =>
    intro cs h
    match n, h with
    | 0, h =>
      have h0 : cs.count '.' = 0 := Nat.lt_one_iff.mp h
      have hnm : '.' ∉ cs := List.count_eq_zero.mp h0
      rw [fullSplitDot_of_not_mem cs hnm]
      rfl
    | Nat.succ m, h =>
      rw [goSplitN]
      rcases hd : cs.dropWhile (fun c => c ≠ '.') with _ | ⟨d, rest⟩
      · have hcs : cs.takeWhile (fun c => c ≠ '.') = cs := by
          have := List.takeWhile_append_dropWhile (p := fun c => c ≠ '.') (l := cs)
          rw [hd, List.append_nil] at this
          exact this
        have hnm : '.' ∉ cs := by
          intro hm
          rw [← hcs] at hm
          have := List.mem_takeWhile_imp hm
          simp at this
        rw [fullSplitDot_of_not_mem cs hnm]
      · have hdd : d = '.' := by
          have := dropWhile_head_false hd
          simpa using this
        have hcs : cs.takeWhile (fun c => c ≠ '.') ++ '.' :: rest = cs := by
          have := List.takeWhile_append_dropWhile (p := fun c => c ≠ '.') (l := cs)
          rw [hd, hdd] at this
          exact this
        have htw : '.' ∉ cs.takeWhile (fun c => c ≠ '.') := by
          intro hm
          have := List.mem_takeWhile_imp hm
          simp at this
        have hcount : rest.count '.' < Nat.succ m := by
          have hc : cs.count '.' =
              (cs.takeWhile (fun c => c ≠ '.')).count '.' + ('.' :: rest).count '.' := by
            rw [← List.count_append, hcs]
          rw [List.count_cons_self, List.count_eq_zero.mpr htw] at hc
          omega
        show List.takeWhile (fun c => c ≠ '.') cs :: goSplitN rest (Nat.succ m) =
          fullSplitDot cs
        rw [ih rest hcount]
        conv_rhs => rw [← hcs]
        rw [fullSplitDot_append, fullSplitDot_of_not_mem _ htw]
        simp

theorem string_toList_append (a b : String) :
    (a ++ b).toList = a.toList ++ b.toList := by
  cases a; cases b; rfl

theorem string_mk_toList (s : String) : String.mk s.toList = s := by
  cases s; rfl

theorem checkConflicts_of_not_stdout (cfg : Config) (h : cfg.stdout = false) :
    checkConflicts cfg = none := by
  simp [checkConflicts, h]

/-- The success branch of the decompress path derivation: when the file
name is `pre ++ "." ++ suffix` with a dot-free, non-empty suffix and a
non-empty remainder, the derived output is the directory plus `pre`. -/
theorem deriveOutPath_strip (dir pre suffix p : String)
    (hsplit : goPathSplit p = (dir, pre ++ "." ++ suffix))
    (hdot : '.' ∉ suffix.toList) (hpre : pre.toList ≠ [])
    (hsuf : suffix.toList ≠ []) :
    deriveOutPath true suffix p = Except.ok (dir ++ pre) := by
  have hbase : (pre ++ "." ++ suffix).toList =
      pre.toList ++ '.' :: suffix.toList := by
    rw [string_toList_append, string_toList_append]
    simp
  have hdotsuf : ("." ++ suffix).toList = '.' :: suffix.toList := by
    rw [string_toList_append]
    rfl
  have hhs : goHasSuffix (pre ++ "." ++ suffix) ("." ++ suffix) = true := by
    rw [goHasSuffix, decide_eq_true_eq, hbase, hdotsuf]
    constructor
    · simp
    · have hlen : (pre.toList ++ '.' :: suffix.toList).length -
          ('.' :: suffix.toList).length = pre.toList.length := by
        simp
      rw [hlen, List.drop_left]
  have hlt : ("." ++ suffix).toList.length <
      (pre ++ "." ++ suffix).toList.length := by
    rw [hbase, hdotsuf]
    have : 0 < pre.toList.length := List.length_pos.mpr hpre
    simp only [List.length_append, List.length_cons]
    omega
  have hcount : (pre ++ "." ++ suffix).toList.count '.' <
      (pre ++ "." ++ suffix).toList.length := by
    rw [hbase]
    have h1 : pre.toList.count '.' ≤ pre.toList.length :=
      List.count_le_length '.' pre.toList
    have h2 : suffix.toList.count '.' = 0 := List.count_eq_zero.mpr hdot
    have h3 : 0 < suffix.toList.length := List.length_pos.mpr hsuf
    simp only [List.count_append, List.count_cons_self, List.length_append,
      List.length_cons, h2]
    omega
  rw [deriveOutPath]
  simp only [if_pos rfl, hsplit, hhs, if_pos (gt_iff_lt.mpr hlt), if_true]
  rw [goSplitN_eq_full _ _ hcount, hbase, fullSplitDot_append,
    fullSplitDot_of_not_mem _ hdot]
  have hdl : (fullSplitDot pre.toList ++ [suffix.toList]).dropLast =
      fullSplitDot pre.toList := by
    simp
  rw [hdl, joinDot_fullSplitDot, string_mk_toList]

/-- The mismatch branch: the file name does not end in `"." ++ suffix`. -/
theorem deriveOutPath_mismatch (suffix p dq bq : String)
    (hsplit : goPathSplit p = (dq, bq))
    (hns : goHasSuffix bq ("." ++ suffix) = false) :
    deriveOutPath true suffix p = Except.error PErr.suffixMismatch := by
  rw [deriveOutPath]
  simp only [if_pos rfl, hsplit, hns]
  rfl

/-- The empty-base branch: the file name is exactly `"." ++ suffix`. -/
theorem deriveOutPath_empty_base (suffix p dr : String)
    (hsplit : goPathSplit p = (dr, "." ++ suffix)) :
    deriveOutPath true suffix p = Except.error PErr.cantStripSuffix := by
  have hhs : goHasSuffix ("." ++ suffix) ("." ++ suffix) = true := by
    rw [goHasSuffix, decide_eq_true_eq]
    constructor
    · simp
    · simp
  rw [deriveOutPath]
  simp only [if_pos rfl, hsplit, hhs, if_true]
  have hnlt : ¬ (("." ++ suffix).toList.length >
      ("." ++ suffix).toList.length) := by omega
  rw [if_neg hnlt]

/-- `processFile` propagates a resolution error with the filesystem
unchanged (main.go lines 163-200 all return before any write). -/
theorem processFile_resolve_error (cdc : Codec) (cfg : Config)
    (sb : List Nat) (fs : FS) (inp : String) (ent : Entry) (e : PErr)
    (hstd : cfg.stdout = false) (htest : cfg.test = false) (hne : inp ≠ "-")
    (hent : fs.lookup inp = some ent) (hdir : ent ≠ Entry.directory)
    (hres : resolveOut cfg fs inp = Except.error e) :
    processFile cdc cfg sb fs inp = (Except.error e, fs) := by
  rw [processFile, checkConflicts_of_not_stdout cfg hstd]
  simp only [htest, if_neg hne, hent, if_neg hdir, hstd, hres]
  rfl

/-! ### Concrete objects shared by witnesses -/

/-- Baseline derived-file compress configuration. -/
def cfgZ : Config where
  stdout := false
  decompress := false
  force := false
  keep := false
  test := false
  recursive := false
  suffix := "bz2"
  level := 9
  sSetByUser := false

/-- Baseline derived-file decompress configuration. -/
def cfgDz : Config := { cfgZ with decompress := true }

/-- A one-file filesystem with no fault injections. -/
def fsA : FS :=
  { entries := [("a", Entry.regular [1, 2])], openFails := [], removeFails := [] }

/-! ### Claims -/

/-- C1 (amended): for a decompress job in derived-file mode whose source
base name is `pre ++ "." ++ suffix` with a dot-free non-empty suffix and
non-empty `pre`, the resolved output path is the directory plus `pre`
(the trailing `"." ++ suffix` stripped); when the base name does not end
in `"." ++ suffix` the job fails with SuffixMismatch and leaves the
filesystem unchanged; when the base name is exactly `"." ++ suffix`
(stripping would leave an empty base) the derivation fails.  For suffixes
that contain `"."` the equality with full-suffix stripping does not hold
(see the counterexample): the code strips only after the last dot. -/
theorem claim_C1_amended
    (dir pre suffix p : String)
    (hsplit : goPathSplit p = (dir, pre ++ "." ++ suffix))
    (hdot : '.' ∉ suffix.toList) (hpre : pre.toList ≠ [])
    (hsuf : suffix.toList ≠ [])
    (cdc : Codec) (cfg : Config) (sb : List Nat) (fs : FS)
    (q dq bq : String) (ent : Entry)
    (hstd : cfg.stdout = false) (htest : cfg.test = false)
    (hdec : cfg.decompress = true) (hcs : cfg.suffix = suffix)
    (hsne : suffix ≠ "")
    (hqsplit : goPathSplit q = (dq, bq))
    (hqns : goHasSuffix bq ("." ++ suffix) = false)
    (hq : q ≠ "-") (hent : fs.lookup q = some ent)
    (hdirent : ent ≠ Entry.directory)
    (r dr : String) (hrsplit : goPathSplit r = (dr, "." ++ suffix)) :
    deriveOutPath true suffix p = Except.ok (dir ++ pre)
    ∧ processFile cdc cfg sb fs q = (Except.error PErr.suffixMismatch, fs)
    ∧ deriveOutPath true suffix r = Except.error PErr.cantStripSuffix := by
  refine ⟨deriveOutPath_strip dir pre suffix p hsplit hdot hpre hsuf, ?_,
    deriveOutPath_empty_base suffix r dr hrsplit⟩
  apply processFile_resolve_error cdc cfg sb fs q ent _ hstd htest hq hent hdirent
  rw [resolveOut, if_neg (by rw [hcs]; exact hsne), hdec, hcs,
    deriveOutPath_mismatch suffix q dq bq hqsplit hqns]

/-- C1 witness: the amended claim at suffix "bz2", source "x.bz2",
mismatching source "q.txt" and empty-base source ".bz2". -/
theorem claim_C1_witness :
    deriveOutPath true "bz2" "x.bz2" = Except.ok ("" ++ "x")
    ∧ processFile idCodec cfgDz []
        { entries := [("q.txt", Entry.regular [3])], openFails := [], removeFails := [] }
        "q.txt" =
      (Except.error PErr.suffixMismatch,
        { entries := [("q.txt", Entry.regular [3])], openFails := [], removeFails := [] })
    ∧ deriveOutPath true "bz2" ".bz2" = Except.error PErr.cantStripSuffix :=
  claim_C1_amended "" "x" "bz2" "x.bz2" (by decide) (by decide) (by decide)
    (by decide) idCodec cfgDz []
    { entries := [("q.txt", Entry.regular [3])], openFails := [], removeFails := [] }
    "q.txt" "" "q.txt" (Entry.regular [3]) (by decide) (by decide) (by decide)
    (by decide) (by decide) (by decide) (by decide) (by decide) (by decide)
    (by decide) ".bz2" "" (by decide)

/-- C1 counterexample: for the suffix "tar.bz2" (which itself contains a
dot) and the source "x.tar.bz2", the code resolves the output to "x.tar"
(only the part after the last dot is stripped), while stripping the
trailing "." + suffix as the claim states would give "x". -/
theorem claim_C1_counterexample :
    deriveOutPath true "tar.bz2" "x.tar.bz2" = Except.ok "x.tar"
    ∧ specStripSuffix "x.tar.bz2" "tar.bz2" = some "x"
    ∧ ("x.tar" : String) ≠ "x" := by decide

/-! ### Collision-policy lemmas -/

theorem collisionCheck_noforce (fs : FS) (out : String) (ent : Entry)
    (hout : fs.lookup out = some ent) :
    collisionCheck false fs out = Except.error PErr.outputExists := by
  rw [collisionCheck, hout]
  rfl

theorem collisionCheck_force_dir (fs : FS) (out : String)
    (hout : fs.lookup out = some Entry.directory) :
    collisionCheck true fs out = Except.error PErr.outputIsDirectory := by
  rw [collisionCheck, hout]
  rfl

theorem collisionCheck_force_nondir (fs : FS) (out : String) (ent : Entry)
    (hout : fs.lookup out = some ent) (hdir : ent ≠ Entry.directory)
    (hrm : fs.removeFails.contains out = false) :
    collisionCheck true fs out = Except.ok (fs.eraseP out) := by
  rw [collisionCheck, hout]
  simp only [Bool.not_true, Bool.false_eq_true, if_false, if_neg hdir, hrm,
    Bool.false_eq_true, if_false]

theorem resolveOut_collision_error (cfg : Config) (fs : FS) (p out : String)
    (e : PErr) (hsuf : cfg.suffix ≠ "")
    (hderive : deriveOutPath cfg.decompress cfg.suffix p = Except.ok out)
    (hcol : collisionCheck cfg.force fs out = Except.error e) :
    resolveOut cfg fs p = Except.error e := by
  simp only [resolveOut, if_neg hsuf, hderive]
  rw [hcol]

/-- C2 (amended): when the resolved output path exists and the
force-overwrite flag is not set, the job fails with OutputExists
(whatever the type of the existing entry) and the filesystem is
unchanged.  With force set, an existing directory fails the job with
OutputIsDirectory and is not removed, but any existing non-directory
entry — regular file or device — is removed by the collision check
before piping. -/
theorem claim_C2_amended
    (cdc : Codec) (sb : List Nat)
    (cfgA : Config) (fs1 : FS) (p1 out1 : String) (c1 : List Nat) (ent1 : Entry)
    (hstdA : cfgA.stdout = false) (htestA : cfgA.test = false)
    (hsufA : cfgA.suffix ≠ "") (hforceA : cfgA.force = false)
    (hp1 : p1 ≠ "-") (hsrc1 : fs1.lookup p1 = some (Entry.regular c1))
    (hder1 : deriveOutPath cfgA.decompress cfgA.suffix p1 = Except.ok out1)
    (hout1 : fs1.lookup out1 = some ent1)
    (cfgB : Config) (fs2 : FS) (p2 out2 : String) (c2 : List Nat)
    (hstdB : cfgB.stdout = false) (htestB : cfgB.test = false)
    (hsufB : cfgB.suffix ≠ "") (hforceB : cfgB.force = true)
    (hp2 : p2 ≠ "-") (hsrc2 : fs2.lookup p2 = some (Entry.regular c2))
    (hder2 : deriveOutPath cfgB.decompress cfgB.suffix p2 = Except.ok out2)
    (hout2 : fs2.lookup out2 = some Entry.directory)
    (fs3 : FS) (out3 : String) (ent3 : Entry)
    (hout3 : fs3.lookup out3 = some ent3) (hdir3 : ent3 ≠ Entry.directory)
    (hrm3 : fs3.removeFails.contains out3 = false) :
    processFile cdc cfgA sb fs1 p1 = (Except.error PErr.outputExists, fs1)
    ∧ processFile cdc cfgB sb fs2 p2 = (Except.error PErr.outputIsDirectory, fs2)
    ∧ collisionCheck true fs3 out3 = Except.ok (fs3.eraseP out3) := by
  refine ⟨?_, ?_, collisionCheck_force_nondir fs3 out3 ent3 hout3 hdir3 hrm3⟩
  · apply processFile_resolve_error cdc cfgA sb fs1 p1 (Entry.regular c1) _
      hstdA htestA hp1 hsrc1 (by simp)
    apply resolveOut_collision_error cfgA fs1 p1 out1 _ hsufA hder1
    rw [hforceA]
    exact collisionCheck_noforce fs1 out1 ent1 hout1
  · apply processFile_resolve_error cdc cfgB sb fs2 p2 (Entry.regular c2) _
      hstdB htestB hp2 hsrc2 (by simp)
    apply resolveOut_collision_error cfgB fs2 p2 out2 _ hsufB hder2
    rw [hforceB]
    exact collisionCheck_force_dir fs2 out2 hout2

/-- C2 witness: concrete runs through all three branches of the amended
claim, with a regular source "a", output "a.bz2". -/
theorem claim_C2_witness :
    processFile idCodec cfgZ []
      { entries := [("a", Entry.regular [1, 2]), ("a.bz2", Entry.device)],
        openFails := [], removeFails := [] } "a" =
      (Except.error PErr.outputExists,
        { entries := [("a", Entry.regular [1, 2]), ("a.bz2", Entry.device)],
          openFails := [], removeFails := [] })
    ∧ processFile idCodec { cfgZ with force := true } []
      { entries := [("a", Entry.regular [1, 2]), ("a.bz2", Entry.directory)],
        openFails := [], removeFails := [] } "a" =
      (Except.error PErr.outputIsDirectory,
        { entries := [("a", Entry.regular [1, 2]), ("a.bz2", Entry.directory)],
          openFails := [], removeFails := [] })
    ∧ collisionCheck true
      { entries := [("a.bz2", Entry.device)], openFails := [], removeFails := [] }
      "a.bz2" =
      Except.ok (FS.eraseP
        { entries := [("a.bz2", Entry.device)], openFails := [], removeFails := [] }
        "a.bz2") :=
  claim_C2_amended idCodec [] cfgZ
    { entries := [("a", Entry.regular [1, 2]), ("a.bz2", Entry.device)],
      openFails := [], removeFails := [] }
    "a" "a.bz2" [1, 2] Entry.device (by decide) (by decide) (by decide) (by decide)
    (by decide) (by decide) (by decide) (by decide)
    { cfgZ with force := true }
    { entries := [("a", Entry.regular [1, 2]), ("a.bz2", Entry.directory)],
      openFails := [], removeFails := [] }
    "a" "a.bz2" [1, 2] (by decide) (by decide) (by decide) (by decide) (by decide)
    (by decide) (by decide) (by decide)
    { entries := [("a.bz2", Entry.device)], openFails := [], removeFails := [] }
    "a.bz2" Entry.device (by decide) (by decide) (by decide)

/-- C2 counterexample: the output path "a.bz2" exists as a device (a
non-regular entry) and force is set; the claim says the job must fail
with OutputNotRegularFile and the entry must never be removed, but the
job succeeds and the device entry has been replaced by the regular
output file. -/
theorem claim_C2_counterexample :
    (processFile idCodec { cfgZ with force := true, keep := true } []
      { entries := [("a", Entry.regular [1, 2]), ("a.bz2", Entry.device)],
        openFails := [], removeFails := [] } "a").1 = Except.ok ()
    ∧ (processFile idCodec { cfgZ with force := true, keep := true } []
      { entries := [("a", Entry.regular [1, 2]), ("a.bz2", Entry.device)],
        openFails := [], removeFails := [] } "a").2.lookup "a.bz2" =
      some (Entry.regular [1, 2]) := by decide

/-! ### Empty-suffix and batch lemmas -/

theorem processFile_emptySuffix (cdc : Codec) (cfg : Config) (sb : List Nat)
    (fs : FS) (p : String) (ent : Entry)
    (hstd : cfg.stdout = false) (htest : cfg.test = false)
    (hsuf : cfg.suffix = "") (hp : p ≠ "-")
    (hent : fs.lookup p = some ent) (hdir : ent ≠ Entry.directory) :
    processFile cdc cfg sb fs p = (Except.error PErr.emptySuffix, fs) := by
  apply processFile_resolve_error cdc cfg sb fs p ent _ hstd htest hp hent hdir
  rw [resolveOut, if_pos hsuf]

theorem runArg_file (cdc : Codec) (cfg : Config) (forest : String → FTree)
    (sb : List Nat) (fs : FS) (arg : String) (ent : Entry)
    (hne : arg ≠ "-") (hent : fs.lookup arg = some ent)
    (hdir : ent ≠ Entry.directory) :
    runArg cdc cfg forest sb fs arg =
      ([(arg, (processFile cdc cfg sb fs arg).1)],
        (processFile cdc cfg sb fs arg).2) := by
  rw [runArg, if_neg hne, hent]
  cases ent with
  | directory => exact absurd rfl hdir
  | regular c => rfl
  | device => rfl

theorem runArgs_emptySuffix (cdc : Codec) (cfg : Config)
    (forest : String → FTree) (sb : List Nat) (fs : FS) (args : List String)
    (hstd : cfg.stdout = false) (htest : cfg.test = false)
    (hsuf : cfg.suffix = "")
    (hargs : ∀ a ∈ args, a ≠ "-" ∧
      ∃ ent, fs.lookup a = some ent ∧ ent ≠ Entry.directory) :
    runArgs cdc cfg forest sb fs args =
      (args.map (fun a => (a, Except.error PErr.emptySuffix)), fs) := by
  induction args with
  | nil => rfl
  | cons a rest ih =>
    obtain ⟨hne, ent, hent, hdir⟩ := hargs a (List.mem_cons_self a rest)
    have hpf := processFile_emptySuffix cdc cfg sb fs a ent hstd htest hsuf hne
      hent hdir
    rw [runArgs, runArg_file cdc cfg forest sb fs a ent hne hent hdir, hpf,
      ih (fun b hb => hargs b (List.mem_cons_of_mem a hb))]
    rfl

/-- C3 (amended): an out-of-range compression level is fatal to the whole
run, aborting in `main` before any file is touched (the filesystem is
returned unchanged and no outcome is produced).  An empty suffix in
derived-file mode, however, is not fatal: every file job in the argument
list runs and fails individually with the empty-suffix error, the run
continues to completion with one failed outcome per argument, and no
file is created or removed (the filesystem is unchanged). -/
theorem claim_C3_amended
    (cdc : Codec) (forest : String → FTree) (sb : List Nat)
    (cfg1 : Config) (fs1 : FS) (args1 : List String)
    (hlv : cfg1.level < 1 ∨ cfg1.level > 9)
    (cfg2 : Config) (fs2 : FS) (args2 : List String)
    (hlv2 : 1 ≤ cfg2.level ∧ cfg2.level ≤ 9)
    (hstd : cfg2.stdout = false) (htest : cfg2.test = false)
    (hsuf : cfg2.suffix = "") (hne2 : args2 ≠ [])
    (hargs : ∀ a ∈ args2, a ≠ "-" ∧
      ∃ ent, fs2.lookup a = some ent ∧ ent ≠ Entry.directory) :
    runBatch cdc cfg1 forest sb fs1 args1 = BatchResult.fatal fs1
    ∧ runBatch cdc cfg2 forest sb fs2 args2 =
      BatchResult.done (args2.map (fun a => (a, Except.error PErr.emptySuffix))) fs2 := by
  constructor
  · rw [runBatch, if_pos hlv]
  · rw [runBatch, if_neg (by omega)]
    simp only [if_neg hne2]
    rw [runArgs_emptySuffix cdc cfg2 forest sb fs2 args2 hstd htest hsuf hargs]

/-- C3 witness: level 0 aborts the run; suffix "" with two regular files
produces two individual failures, no abort, no filesystem change. -/
theorem claim_C3_witness :
    runBatch idCodec { cfgZ with level := 0 } (fun _ => FTree.dir "" false FForest.nil)
      [] fsA ["a"] = BatchResult.fatal fsA
    ∧ runBatch idCodec { cfgZ with suffix := "" } (fun _ => FTree.dir "" false FForest.nil)
      []
      { entries := [("a", Entry.regular [1]), ("b", Entry.regular [2])],
        openFails := [], removeFails := [] } ["a", "b"] =
      BatchResult.done
        [("a", Except.error PErr.emptySuffix), ("b", Except.error PErr.emptySuffix)]
        { entries := [("a", Entry.regular [1]), ("b", Entry.regular [2])],
          openFails := [], removeFails := [] } :=
  claim_C3_amended idCodec (fun _ => FTree.dir "" false FForest.nil) []
    { cfgZ with level := 0 } fsA ["a"] (by decide)
    { cfgZ with suffix := "" }
    { entries := [("a", Entry.regular [1]), ("b", Entry.regular [2])],
      openFails := [], removeFails := [] }
    ["a", "b"] (by decide) (by decide) (by decide) (by decide) (by decide)
    (by
      intro a ha
      fin_cases ha
      · exact ⟨by decide, Entry.regular [1], by decide, by decide⟩
      · exact ⟨by decide, Entry.regular [2], by decide, by decide⟩)

/-- C3 counterexample: with suffix "" in derived-file mode and two
regular-file arguments, the run is not aborted: both file jobs are
attempted (two outcomes are produced) instead of the whole run failing
fatally before any file, as the claim states. -/
theorem claim_C3_counterexample :
    (runBatch idCodec { cfgZ with suffix := "" }
      (fun _ => FTree.dir "" false FForest.nil) []
      { entries := [("a", Entry.regular [1]), ("b", Entry.regular [2])],
        openFails := [], removeFails := [] } ["a", "b"]).isFatal = false
    ∧ (runBatch idCodec { cfgZ with suffix := "" }
      (fun _ => FTree.dir "" false FForest.nil) []
      { entries := [("a", Entry.regular [1]), ("b", Entry.regular [2])],
        openFails := [], removeFails := [] } ["a", "b"]).outcomes.length = 2 := by
  decide

theorem resolveOut_ok (cfg : Config) (fs fs1 : FS) (p out : String)
    (hsuf : cfg.suffix ≠ "")
    (hder : deriveOutPath cfg.decompress cfg.suffix p = Except.ok out)
    (hcol : collisionCheck cfg.force fs out = Except.ok fs1) :
    resolveOut cfg fs p = Except.ok (out, fs1) := by
  simp only [resolveOut, if_neg hsuf, hder]
  rw [hcol]

theorem processFile_resolve_ok (cdc : Codec) (cfg : Config) (sb : List Nat)
    (fs fs1 : FS) (p out : String) (ent : Entry)
    (hstd : cfg.stdout = false) (htest : cfg.test = false) (hp : p ≠ "-")
    (hent : fs.lookup p = some ent) (hdir : ent ≠ Entry.directory)
    (hres : resolveOut cfg fs p = Except.ok (out, fs1)) :
    processFile cdc cfg sb fs p = pipeAndFinalize cdc cfg sb fs1 p (some out) := by
  rw [processFile, checkConflicts_of_not_stdout cfg hstd]
  simp only [htest, if_neg hp, hent, if_neg hdir, hstd, hres]
  rfl

/-- C4 (confirmed): when the resolved output path exists as a regular
file and force is not set, the job fails with OutputExists and the
filesystem — in particular the existing output file's bytes — is left
untouched.  With force set, the resolution phase removes the existing
regular file (`os.Remove`, not an in-place truncation) and the rest of
the job pipes starting from the filesystem with that entry erased. -/
theorem claim_C4_nooverwrite
    (cdc : Codec) (sb : List Nat)
    (cfgA : Config) (fs1 : FS) (p1 out1 : String) (c1 oc1 : List Nat)
    (hstdA : cfgA.stdout = false) (htestA : cfgA.test = false)
    (hsufA : cfgA.suffix ≠ "") (hforceA : cfgA.force = false)
    (hp1 : p1 ≠ "-") (hsrc1 : fs1.lookup p1 = some (Entry.regular c1))
    (hder1 : deriveOutPath cfgA.decompress cfgA.suffix p1 = Except.ok out1)
    (hout1 : fs1.lookup out1 = some (Entry.regular oc1))
    (cfgB : Config) (fs2 : FS) (p2 out2 : String) (c2 oc2 : List Nat)
    (hstdB : cfgB.stdout = false) (htestB : cfgB.test = false)
    (hsufB : cfgB.suffix ≠ "") (hforceB : cfgB.force = true)
    (hp2 : p2 ≠ "-") (hsrc2 : fs2.lookup p2 = some (Entry.regular c2))
    (hder2 : deriveOutPath cfgB.decompress cfgB.suffix p2 = Except.ok out2)
    (hout2 : fs2.lookup out2 = some (Entry.regular oc2))
    (hrm2 : fs2.removeFails.contains out2 = false) :
    processFile cdc cfgA sb fs1 p1 = (Except.error PErr.outputExists, fs1)
    ∧ resolveOut cfgB fs2 p2 = Except.ok (out2, fs2.eraseP out2)
    ∧ processFile cdc cfgB sb fs2 p2 =
      pipeAndFinalize cdc cfgB sb (fs2.eraseP out2) p2 (some out2) := by
  have hres2 : resolveOut cfgB fs2 p2 = Except.ok (out2, fs2.eraseP out2) := by
    apply resolveOut_ok cfgB fs2 _ p2 out2 hsufB hder2
    rw [hforceB]
    exact collisionCheck_force_nondir fs2 out2 (Entry.regular oc2) hout2
      (by simp) hrm2
  refine ⟨?_, hres2, ?_⟩
  · apply processFile_resolve_error cdc cfgA sb fs1 p1 (Entry.regular c1) _
      hstdA htestA hp1 hsrc1 (by simp)
    apply resolveOut_collision_error cfgA fs1 p1 out1 _ hsufA hder1
    rw [hforceA]
    exact collisionCheck_noforce fs1 out1 (Entry.regular oc1) hout1
  · exact processFile_resolve_ok cdc cfgB sb fs2 _ p2 out2 (Entry.regular c2)
      hstdB htestB hp2 hsrc2 (by simp) hres2

/-- C4 witness: source "a", existing regular output "a.bz2" with bytes
[9]; without force the job fails leaving the filesystem unchanged; with
force the resolution phase erases "a.bz2" before piping. -/
theorem claim_C4_witness :
    processFile idCodec cfgZ []
      { entries := [("a", Entry.regular [1, 2]), ("a.bz2", Entry.regular [9])],
        openFails := [], removeFails := [] } "a" =
      (Except.error PErr.outputExists,
        { entries := [("a", Entry.regular [1, 2]), ("a.bz2", Entry.regular [9])],
          openFails := [], removeFails := [] })
    ∧ resolveOut { cfgZ with force := true }
      { entries := [("a", Entry.regular [1, 2]), ("a.bz2", Entry.regular [9])],
        openFails := [], removeFails := [] } "a" =
      Except.ok ("a.bz2", FS.eraseP
        { entries := [("a", Entry.regular [1, 2]), ("a.bz2", Entry.regular [9])],
          openFails := [], removeFails := [] } "a.bz2")
    ∧ processFile idCodec { cfgZ with force := true } []
      { entries := [("a", Entry.regular [1, 2]), ("a.bz2", Entry.regular [9])],
        openFails := [], removeFails := [] } "a" =
      pipeAndFinalize idCodec { cfgZ with force := true } []
        (FS.eraseP
          { entries := [("a", Entry.regular [1, 2]), ("a.bz2", Entry.regular [9])],
            openFails := [], removeFails := [] } "a.bz2") "a" (some "a.bz2") :=
  claim_C4_nooverwrite idCodec [] cfgZ
    { entries := [("a", Entry.regular [1, 2]), ("a.bz2", Entry.regular [9])],
      openFails := [], removeFails := [] }
    "a" "a.bz2" [1, 2] [9] (by decide) (by decide) (by decide) (by decide)
    (by decide) (by decide) (by decide) (by decide)
    { cfgZ with force := true }
    { entries := [("a", Entry.regular [1, 2]), ("a.bz2", Entry.regular [9])],
      openFails := [], removeFails := [] }
    "a" "a.bz2" [1, 2] [9] (by decide) (by decide) (by decide) (by decide)
    (by decide) (by decide) (by decide) (by decide) (by decide)

/-! ### Filesystem and pipeline lemmas -/

theorem find_filter_ne (l : List (String × Entry)) (p q : String) (h : p ≠ q) :
    (l.filter (fun e => e.1 != q)).find? (fun e => e.1 == p) =
      l.find? (fun e => e.1 == p) := by
  induction l with
  | nil => rfl
  | cons x xs ih =>
    rw [List.filter_cons, List.find?_cons]
    by_cases hx : x.1 = q
    · have h1 : (x.1 != q) = false := by simp [hx]
      have h2 : (x.1 == p) = false := by
        rw [hx]
        simp
        intro hqp
        exact h hqp.symm
      rw [h1]
      simp only [Bool.false_eq_true, if_false, h2, ih]
    · have h1 : (x.1 != q) = true := by simp [hx]
      rw [h1]
      simp only [if_true, List.find?_cons]
      by_cases hxp : x.1 = p
      · have h2 : (x.1 == p) = true := by simp [hxp]
        simp only [h2]
      · have h2 : (x.1 == p) = false := by simp [hxp]
        simp only [h2, ih]

theorem find_filter_self (l : List (String × Entry)) (p : String) :
    (l.filter (fun e => e.1 != p)).find? (fun e => e.1 == p) = none := by
  induction l with
  | nil => rfl
  | cons x xs ih =>
    by_cases hx : x.1 = p
    · simp [List.filter_cons, hx, ih]
    · simp [List.filter_cons, hx, List.find?_cons, ih]

theorem FS.lookup_insert_self (fs : FS) (p : String) (e : Entry) :
    (fs.insert p e).lookup p = some e := by
  simp [FS.lookup, FS.insert, List.find?_cons]

theorem FS.lookup_insert_ne (fs : FS) (p q : String) (e : Entry) (h : p ≠ q) :
    (fs.insert q e).lookup p = fs.lookup p := by
  have hq : (q == p) = false := by
    simp
    intro hqp
    exact h hqp.symm
  simp only [FS.lookup, FS.insert, List.find?_cons, hq]
  rw [find_filter_ne fs.entries p q h]

theorem FS.lookup_eraseP_self (fs : FS) (p : String) :
    (fs.eraseP p).lookup p = none := by
  simp only [FS.lookup, FS.eraseP]
  rw [find_filter_self fs.entries p]

theorem FS.insert_insert (fs : FS) (p : String) (a b : Entry) :
    (fs.insert p a).insert p b = fs.insert p b := by
  simp only [FS.insert]
  congr 1
  rw [List.filter_cons]
  have h1 : (((p, a) : String × Entry).1 != p) = false := by simp
  rw [h1]
  simp only [Bool.false_eq_true, if_false, List.filter_filter, Bool.and_self]

theorem FS.insert_removeFails (fs : FS) (p : String) (e : Entry) :
    (fs.insert p e).removeFails = fs.removeFails := rfl

theorem collisionCheck_none (force : Bool) (fs : FS) (out : String)
    (h : fs.lookup out = none) :
    collisionCheck force fs out = Except.ok fs := by
  rw [collisionCheck, h]

theorem runPipe_ok (cdc : Codec) (cfg : Config) (sb : List Nat) (fs : FS)
    (p out : String) (src d : List Nat)
    (hsrc : sourceBytes sb fs p = Except.ok src)
    (htr : transform cdc cfg src = Except.ok d) :
    runPipe cdc cfg sb fs p (some out) =
      (Except.ok (), fs.insert out (Entry.regular d)) := by
  simp only [runPipe, hsrc, htr]
  rw [FS.insert_insert]

theorem runPipe_transform_error (cdc : Codec) (cfg : Config) (sb : List Nat)
    (fs : FS) (p out : String) (src : List Nat) (e : PErr)
    (hsrc : sourceBytes sb fs p = Except.ok src)
    (htr : transform cdc cfg src = Except.error e) :
    runPipe cdc cfg sb fs p (some out) =
      (Except.error e, fs.insert out (Entry.regular [])) := by
  simp only [runPipe, hsrc, htr]

theorem runPipe_stdout_ok (cdc : Codec) (cfg : Config) (sb : List Nat)
    (fs : FS) (p : String) (src d : List Nat)
    (hsrc : sourceBytes sb fs p = Except.ok src)
    (htr : transform cdc cfg src = Except.ok d) :
    runPipe cdc cfg sb fs p none = (Except.ok (), fs) := by
  simp only [runPipe, hsrc, htr]

theorem finalize_remove (cfg : Config) (fs : FS) (p : String)
    (hstd : cfg.stdout = false) (hkeep : cfg.keep = false) (hp : p ≠ "-")
    (hrm : fs.removeFails.contains p = false)
    (hlk : (fs.lookup p).isSome = true) :
    finalize cfg fs p = (Except.ok (), fs.eraseP p) := by
  rw [finalize, if_pos (by simp [hstd, hkeep, hp]), removeSource]
  rw [if_neg (by rw [hrm]; simp), if_neg (by
    cases hl : fs.lookup p with
    | none => rw [hl] at hlk; simp at hlk
    | some v => simp)]

theorem finalize_remove_fail (cfg : Config) (fs : FS) (p : String)
    (hstd : cfg.stdout = false) (hkeep : cfg.keep = false) (hp : p ≠ "-")
    (hrm : fs.removeFails.contains p = true) :
    finalize cfg fs p = (Except.error PErr.sourceRemovalFailed, fs) := by
  rw [finalize, if_pos (by simp [hstd, hkeep, hp]), removeSource, if_pos hrm]

theorem finalize_keep (cfg : Config) (fs : FS) (p : String)
    (hkeep : cfg.keep = true) :
    finalize cfg fs p = (Except.ok (), fs) := by
  rw [finalize, if_neg (by simp [hkeep])]

theorem finalize_stdout (cfg : Config) (fs : FS) (p : String)
    (hstd : cfg.stdout = true) :
    finalize cfg fs p = (Except.ok (), fs) := by
  rw [finalize, if_neg (by simp [hstd])]

theorem finalize_stdin (cfg : Config) (fs : FS) :
    finalize cfg fs "-" = (Except.ok (), fs) := by
  rw [finalize, if_neg (by simp)]

theorem sourceBytes_file (sb : List Nat) (fs : FS) (p : String) (c : List Nat)
    (hp : p ≠ "-") (hopen : fs.openFails.contains p = false)
    (hent : fs.lookup p = some (Entry.regular c)) :
    sourceBytes sb fs p = Except.ok c := by
  rw [sourceBytes, if_neg hp, if_neg (by rw [hopen]; simp)]
  simp only [hent]

theorem pipeAndFinalize_pipe_ok (cdc : Codec) (cfg : Config) (sb : List Nat)
    (fs : FS) (p out : String) (src d : List Nat)
    (hsrc : sourceBytes sb fs p = Except.ok src)
    (htr : transform cdc cfg src = Except.ok d) :
    pipeAndFinalize cdc cfg sb fs p (some out) =
      finalize cfg (fs.insert out (Entry.regular d)) p := by
  have h := runPipe_ok cdc cfg sb fs p out src d hsrc htr
  simp only [pipeAndFinalize, h]

theorem pipeAndFinalize_pipe_error (cdc : Codec) (cfg : Config) (sb : List Nat)
    (fs : FS) (p out : String) (src : List Nat) (e : PErr)
    (hsrc : sourceBytes sb fs p = Except.ok src)
    (htr : transform cdc cfg src = Except.error e) :
    pipeAndFinalize cdc cfg sb fs p (some out) =
      (Except.error e, fs.insert out (Entry.regular [])) := by
  have h := runPipe_transform_error cdc cfg sb fs p out src e hsrc htr
  simp only [pipeAndFinalize, h]

theorem pipeAndFinalize_stdout (cdc : Codec) (cfg : Config) (sb : List Nat)
    (fs : FS) (p : String) (src d : List Nat)
    (hsrc : sourceBytes sb fs p = Except.ok src)
    (htr : transform cdc cfg src = Except.ok d)
    (hstd : cfg.stdout = true) :
    pipeAndFinalize cdc cfg sb fs p none = (Except.ok (), fs) := by
  have h := runPipe_stdout_ok cdc cfg sb fs p src d hsrc htr
  simp only [pipeAndFinalize, h]
  exact finalize_stdout cfg fs p hstd

theorem processFile_stdout_file (cdc : Codec) (cfg : Config) (sb : List Nat)
    (fs : FS) (p : String) (ent : Entry)
    (hstd : cfg.stdout = true) (hforce : cfg.force = false)
    (hkeep : cfg.keep = false) (hsset : cfg.sSetByUser = false)
    (htest : cfg.test = false) (hp : p ≠ "-")
    (hent : fs.lookup p = some ent) (hdir : ent ≠ Entry.directory) :
    processFile cdc cfg sb fs p = pipeAndFinalize cdc cfg sb fs p none := by
  have hc : checkConflicts cfg = none := by
    simp [checkConflicts, hstd, hforce, hkeep, hsset]
  rw [processFile, hc]
  simp only [htest, if_neg hp, hent, if_neg hdir, hstd]
  rfl

theorem processFile_stdin (cdc : Codec) (cfg : Config) (sb : List Nat)
    (fs : FS)
    (hstd : cfg.stdout = true) (hforce : cfg.force = false)
    (hkeep : cfg.keep = false) (hsset : cfg.sSetByUser = false)
    (htest : cfg.test = false) :
    processFile cdc cfg sb fs "-" = pipeAndFinalize cdc cfg sb fs "-" none := by
  have hc : checkConflicts cfg = none := by
    simp [checkConflicts, hstd, hforce, hkeep, hsset]
  rw [processFile, hc]
  simp only [htest, if_pos rfl, hstd, hsset]
  rfl

/-- C5 (confirmed): after a successful pipeline the source file is
removed exactly when the destination is a derived file (stdout not set),
keep-source is not set and the source is not stdin (scenario A); if that
removal itself fails the job's outcome is the source-removal error even
though the transform succeeded and the output was written (scenario D);
with keep set (B), in stdout mode (C), or for the stdin source (E) the
source is never removed — in C and E the filesystem is wholly unchanged. -/
theorem claim_C5_source_removal
    (cdc : Codec) (sb : List Nat)
    (cfgA : Config) (fsA : FS) (pA outA : String) (cA dA : List Nat)
    (hA1 : cfgA.stdout = false) (hA2 : cfgA.test = false)
    (hA3 : cfgA.keep = false) (hA4 : cfgA.suffix ≠ "") (hA5 : pA ≠ "-")
    (hA6 : fsA.lookup pA = some (Entry.regular cA))
    (hA7 : fsA.openFails.contains pA = false)
    (hA8 : deriveOutPath cfgA.decompress cfgA.suffix pA = Except.ok outA)
    (hA9 : fsA.lookup outA = none)
    (hA10 : transform cdc cfgA cA = Except.ok dA)
    (hA11 : fsA.removeFails.contains pA = false)
    (cfgB : Config) (fsB : FS) (pB outB : String) (cB dB : List Nat)
    (hB1 : cfgB.stdout = false) (hB2 : cfgB.test = false)
    (hB3 : cfgB.keep = true) (hB4 : cfgB.suffix ≠ "") (hB5 : pB ≠ "-")
    (hB6 : fsB.lookup pB = some (Entry.regular cB))
    (hB7 : fsB.openFails.contains pB = false)
    (hB8 : deriveOutPath cfgB.decompress cfgB.suffix pB = Except.ok outB)
    (hB9 : fsB.lookup outB = none)
    (hB10 : transform cdc cfgB cB = Except.ok dB)
    (cfgC : Config) (fsC : FS) (pC : String) (cC dC : List Nat)
    (hC1 : cfgC.stdout = true) (hC2 : cfgC.force = false)
    (hC3 : cfgC.keep = false) (hC4 : cfgC.sSetByUser = false)
    (hC5 : cfgC.test = false) (hC6 : pC ≠ "-")
    (hC7 : fsC.lookup pC = some (Entry.regular cC))
    (hC8 : fsC.openFails.contains pC = false)
    (hC9 : transform cdc cfgC cC = Except.ok dC)
    (cfgD : Config) (fsD : FS) (pD outD : String) (cD dD : List Nat)
    (hD1 : cfgD.stdout = false) (hD2 : cfgD.test = false)
    (hD3 : cfgD.keep = false) (hD4 : cfgD.suffix ≠ "") (hD5 : pD ≠ "-")
    (hD6 : fsD.lookup pD = some (Entry.regular cD))
    (hD7 : fsD.openFails.contains pD = false)
    (hD8 : deriveOutPath cfgD.decompress cfgD.suffix pD = Except.ok outD)
    (hD9 : fsD.lookup outD = none)
    (hD10 : transform cdc cfgD cD = Except.ok dD)
    (hD11 : fsD.removeFails.contains pD = true)
    (cfgE : Config) (fsE : FS) (dE : List Nat)
    (hE1 : cfgE.stdout = true) (hE2 : cfgE.force = false)
    (hE3 : cfgE.keep = false) (hE4 : cfgE.sSetByUser = false)
    (hE5 : cfgE.test = false)
    (hE6 : transform cdc cfgE sb = Except.ok dE) :
    (processFile cdc cfgA sb fsA pA =
        (Except.ok (), (fsA.insert outA (Entry.regular dA)).eraseP pA)
      ∧ ((fsA.insert outA (Entry.regular dA)).eraseP pA).lookup pA = none)
    ∧ (processFile cdc cfgB sb fsB pB =
        (Except.ok (), fsB.insert outB (Entry.regular dB))
      ∧ (fsB.insert outB (Entry.regular dB)).lookup pB = some (Entry.regular cB))
    ∧ processFile cdc cfgC sb fsC pC = (Except.ok (), fsC)
    ∧ (processFile cdc cfgD sb fsD pD =
        (Except.error PErr.sourceRemovalFailed, fsD.insert outD (Entry.regular dD))
      ∧ (fsD.insert outD (Entry.regular dD)).lookup outD = some (Entry.regular dD))
    ∧ processFile cdc cfgE sb fsE "-" = (Except.ok (), fsE) := by
  have hApo : pA ≠ outA := by
    intro he
    rw [he] at hA6
    rw [hA6] at hA9
    cases hA9
  have hBpo : pB ≠ outB := by
    intro he
    rw [he] at hB6
    rw [hB6] at hB9
    cases hB9
  refine ⟨⟨?_, FS.lookup_eraseP_self _ pA⟩, ⟨?_, ?_⟩, ?_, ⟨?_, FS.lookup_insert_self _ outD _⟩, ?_⟩
  · have h1 := processFile_resolve_ok cdc cfgA sb fsA fsA pA outA
      (Entry.regular cA) hA1 hA2 hA5 hA6 (by simp)
      (resolveOut_ok cfgA fsA fsA pA outA hA4 hA8
        (collisionCheck_none cfgA.force fsA outA hA9))
    have h2 := pipeAndFinalize_pipe_ok cdc cfgA sb fsA pA outA cA dA
      (sourceBytes_file sb fsA pA cA hA5 hA7 hA6) hA10
    have h3 := finalize_remove cfgA (fsA.insert outA (Entry.regular dA)) pA
      hA1 hA3 hA5 (by rw [FS.insert_removeFails]; exact hA11)
      (by rw [FS.lookup_insert_ne fsA pA outA _ hApo, hA6]; rfl)
    rw [h1, h2, h3]
  · have h1 := processFile_resolve_ok cdc cfgB sb fsB fsB pB outB
      (Entry.regular cB) hB1 hB2 hB5 hB6 (by simp)
      (resolveOut_ok cfgB fsB fsB pB outB hB4 hB8
        (collisionCheck_none cfgB.force fsB outB hB9))
    have h2 := pipeAndFinalize_pipe_ok cdc cfgB sb fsB pB outB cB dB
      (sourceBytes_file sb fsB pB cB hB5 hB7 hB6) hB10
    have h3 := finalize_keep cfgB (fsB.insert outB (Entry.regular dB)) pB hB3
    rw [h1, h2, h3]
  · rw [FS.lookup_insert_ne fsB pB outB _ hBpo, hB6]
  · have h1 := processFile_stdout_file cdc cfgC sb fsC pC (Entry.regular cC)
      hC1 hC2 hC3 hC4 hC5 hC6 hC7 (by simp)
    have h2 := pipeAndFinalize_stdout cdc cfgC sb fsC pC cC dC
      (sourceBytes_file sb fsC pC cC hC6 hC8 hC7) hC9 hC1
    rw [h1, h2]
  · have h1 := processFile_resolve_ok cdc cfgD sb fsD fsD pD outD
      (Entry.regular cD) hD1 hD2 hD5 hD6 (by simp)
      (resolveOut_ok cfgD fsD fsD pD outD hD4 hD8
        (collisionCheck_none cfgD.force fsD outD hD9))
    have h2 := pipeAndFinalize_pipe_ok cdc cfgD sb fsD pD outD cD dD
      (sourceBytes_file sb fsD pD cD hD5 hD7 hD6) hD10
    have h3 := finalize_remove_fail cfgD (fsD.insert outD (Entry.regular dD)) pD
      hD1 hD3 hD5 (by rw [FS.insert_removeFails]; exact hD11)
    rw [h1, h2, h3]
  · have h1 := processFile_stdin cdc cfgE sb fsE hE1 hE2 hE3 hE4 hE5
    have h2 := pipeAndFinalize_stdout cdc cfgE sb fsE "-" sb dE rfl hE6 hE1
    rw [h1, h2]

/-- C5 witness: concrete runs through all five scenarios of the
source-removal claim (removal, keep, stdout, removal failure, stdin). -/
theorem claim_C5_witness :
    (processFile idCodec cfgZ [] fsA "a" =
        (Except.ok (), ((fsA.insert "a.bz2" (Entry.regular [1, 2])).eraseP "a"))
      ∧ ((fsA.insert "a.bz2" (Entry.regular [1, 2])).eraseP "a").lookup "a" = none)
    ∧ (processFile idCodec { cfgZ with keep := true } [] fsA "a" =
        (Except.ok (), fsA.insert "a.bz2" (Entry.regular [1, 2]))
      ∧ (fsA.insert "a.bz2" (Entry.regular [1, 2])).lookup "a" =
          some (Entry.regular [1, 2]))
    ∧ processFile idCodec { cfgZ with stdout := true } [] fsA "a" =
        (Except.ok (), fsA)
    ∧ (processFile idCodec cfgZ []
        { entries := [("a", Entry.regular [1])], openFails := [], removeFails := ["a"] }
        "a" =
        (Except.error PErr.sourceRemovalFailed,
          FS.insert
            { entries := [("a", Entry.regular [1])], openFails := [], removeFails := ["a"] }
            "a.bz2" (Entry.regular [1]))
      ∧ (FS.insert
            { entries := [("a", Entry.regular [1])], openFails := [], removeFails := ["a"] }
            "a.bz2" (Entry.regular [1])).lookup "a.bz2" = some (Entry.regular [1]))
    ∧ processFile idCodec { cfgZ with stdout := true } [] fsA "-" =
        (Except.ok (), fsA) :=
  claim_C5_source_removal idCodec []
    cfgZ fsA "a" "a.bz2" [1, 2] [1, 2]
    (by decide) (by decide) (by decide) (by decide) (by decide) (by decide)
    (by decide) (by decide) (by decide) (by decide) (by decide)
    { cfgZ with keep := true } fsA "a" "a.bz2" [1, 2] [1, 2]
    (by decide) (by decide) (by decide) (by decide) (by decide) (by decide)
    (by decide) (by decide) (by decide) (by decide)
    { cfgZ with stdout := true } fsA "a" [1, 2] [1, 2]
    (by decide) (by decide) (by decide) (by decide) (by decide) (by decide)
    (by decide) (by decide) (by decide)
    cfgZ { entries := [("a", Entry.regular [1])], openFails := [], removeFails := ["a"] }
    "a" "a.bz2" [1] [1]
    (by decide) (by decide) (by decide) (by decide) (by decide) (by decide)
    (by decide) (by decide) (by decide) (by decide) (by decide)
    { cfgZ with stdout := true } fsA []
    (by decide) (by decide) (by decide) (by decide) (by decide) (by decide)

/-- C6 (confirmed): for a valid configuration the batch loop produces one
outcome list; the exit code is 0 iff every outcome is ok (any per-file
failure makes it 1); and after any argument — failed or not — the
remaining arguments are still processed, the overall outcome list being
the concatenation of each argument's outcomes in order. -/
theorem claim_C6_aggregate
    (cdc : Codec) (cfg : Config) (forest : String → FTree) (sb : List Nat)
    (fs : FS) (args : List String)
    (os : List (String × Except PErr Unit)) (fs2 : FS)
    (hlv : 1 ≤ cfg.level ∧ cfg.level ≤ 9) (hne : args ≠ [])
    (hrun : runBatch cdc cfg forest sb fs args = BatchResult.done os fs2)
    (a : String) (rest : List String) :
    (batchExitCode (BatchResult.done os fs2) = 0 ↔ ∀ o ∈ os, outcomeOk o.2 = true)
    ∧ (runArgs cdc cfg forest sb fs (a :: rest)).1 =
        (runArg cdc cfg forest sb fs a).1 ++
        (runArgs cdc cfg forest sb (runArg cdc cfg forest sb fs a).2 rest).1
    ∧ runBatch cdc cfg forest sb fs args =
        BatchResult.done (runArgs cdc cfg forest sb fs args).1
          (runArgs cdc cfg forest sb fs args).2 := by
  refine ⟨?_, rfl, ?_⟩
  · rw [batchExitCode]
    by_cases h : os.all (fun o => outcomeOk o.2) = true
    · rw [if_pos h]
      simp only [List.all_eq_true] at h
      exact iff_of_true rfl h
    · rw [if_neg h]
      simp only [List.all_eq_true] at h
      constructor
      · intro h10
        exact absurd h10 one_ne_zero
      · intro hall
        exact absurd hall h
  · rw [runBatch, if_neg (by omega)]
    simp only [if_neg hne]

/-- C6 witness: compressing ["a", "missing"]: "a" succeeds, "missing"
fails with the stat error, the exit code is 1, and the second argument
was still processed after the first. -/
theorem claim_C6_witness :
    (batchExitCode (BatchResult.done
        [("a", Except.ok ()), ("missing", Except.error PErr.sourceNotFound)]
        ((fsA.insert "a.bz2" (Entry.regular [1, 2])).eraseP "a")) = 0 ↔
      ∀ o ∈ [(("a" : String), Except.ok ()),
        ("missing", Except.error PErr.sourceNotFound)], outcomeOk o.2 = true)
    ∧ (runArgs idCodec cfgZ (fun _ => FTree.dir "" false FForest.nil) [] fsA
        ["a", "missing"]).1 =
      (runArg idCodec cfgZ (fun _ => FTree.dir "" false FForest.nil) [] fsA "a").1 ++
      (runArgs idCodec cfgZ (fun _ => FTree.dir "" false FForest.nil) []
        (runArg idCodec cfgZ (fun _ => FTree.dir "" false FForest.nil) [] fsA "a").2
        ["missing"]).1
    ∧ runBatch idCodec cfgZ (fun _ => FTree.dir "" false FForest.nil) [] fsA
        ["a", "missing"] =
      BatchResult.done
        (runArgs idCodec cfgZ (fun _ => FTree.dir "" false FForest.nil) [] fsA
          ["a", "missing"]).1
        (runArgs idCodec cfgZ (fun _ => FTree.dir "" false FForest.nil) [] fsA
          ["a", "missing"]).2 :=
  claim_C6_aggregate idCodec cfgZ (fun _ => FTree.dir "" false FForest.nil) [] fsA
    ["a", "missing"]
    [("a", Except.ok ()), ("missing", Except.error PErr.sourceNotFound)]
    ((fsA.insert "a.bz2" (Entry.regular [1, 2])).eraseP "a")
    (by decide) (by decide) (by decide) "a" ["missing"]

/- The walk of an error-free tree is exactly one job per regular file,
in depth-first order. -/
mutual
theorem walk_errFree (t : FTree) (h : FTree.errFree t = true) :
    FTree.walk t = (FTree.filePaths t).map WalkEvent.job := by
  cases t with
  | file p e =>
    have he : e = false := by
      rw [FTree.errFree] at h
      simpa using h
    rw [FTree.walk, FTree.filePaths, he]
    rfl
  | dir p e cs =>
    rw [FTree.errFree] at h
    have he : e = false := by
      cases e
      · rfl
      · simp at h
    have hcs : FForest.errFreeF cs = true := by
      rw [he] at h
      simpa using h
    rw [FTree.walk, FTree.filePaths, he]
    simp only [Bool.false_eq_true, if_false]
    exact walkF_errFree cs hcs
theorem walkF_errFree (ts : FForest) (h : FForest.errFreeF ts = true) :
    FForest.walkF ts = (FForest.filePathsF ts).map WalkEvent.job := by
  cases ts with
  | nil => rfl
  | cons t ts =>
    rw [FForest.errFreeF, Bool.and_eq_true] at h
    rw [FForest.walkF, FForest.filePathsF, List.map_append,
      walk_errFree t h.1, walkF_errFree ts h.2]
end

/- A job event in any walk (with or without traversal faults) can only
name a regular-file path of the tree: directories are never jobs. -/
mutual
theorem walk_job_mem (t : FTree) (p : String)
    (h : WalkEvent.job p ∈ FTree.walk t) : p ∈ FTree.filePaths t := by
  cases t with
  | file q e =>
    cases e with
    | true =>
      rw [FTree.walk] at h
      simp at h
    | false =>
      rw [FTree.walk] at h
      simp at h
      rw [FTree.filePaths, h]
      simp
  | dir q e cs =>
    cases e with
    | true =>
      rw [FTree.walk] at h
      simp at h
    | false =>
      rw [FTree.walk] at h
      simp only [Bool.false_eq_true, if_false] at h
      rw [FTree.filePaths]
      exact walkF_job_mem cs p h
theorem walkF_job_mem (ts : FForest) (p : String)
    (h : WalkEvent.job p ∈ FForest.walkF ts) : p ∈ FForest.filePathsF ts := by
  cases ts with
  | nil =>
    rw [FForest.walkF] at h
    simp at h
  | cons t ts =>
    rw [FForest.walkF, List.mem_append] at h
    rw [FForest.filePathsF, List.mem_append]
    cases h with
    | inl h1 => exact Or.inl (walk_job_mem t p h1)
    | inr h2 => exact Or.inr (walkF_job_mem ts p h2)
end

theorem walkEvent_job_injective : Function.Injective WalkEvent.job := by
  intro a b h
  cases h
  rfl

/-- C7 (confirmed): a directory argument with recursion disabled yields a
single job-level failure and no file jobs, leaving the filesystem alone;
with recursion enabled the argument is expanded by the depth-first walk;
on an error-free tree the walk emits exactly one job per regular file in
depth-first order (hence each regular file exactly once, by count), a job
is never a directory entry (its path is always one of the tree's file
paths, faults included), a faulty node is reported as a single error
event, and the events of the remaining siblings are unaffected. -/
theorem claim_C7_traversal
    (cdc : Codec) (cfg : Config) (forest : String → FTree) (sb : List Nat)
    (fs : FS) (arg : String) (hargne : arg ≠ "-")
    (hdir : fs.lookup arg = some Entry.directory)
    (hnr : cfg.recursive = false)
    (cfg2 : Config) (hr2 : cfg2.recursive = true)
    (fs2 : FS) (arg2 : String) (harg2 : arg2 ≠ "-")
    (hdir2 : fs2.lookup arg2 = some Entry.directory)
    (t : FTree) (ht : FTree.errFree t = true) (p : String)
    (u : FTree) (q : String) (hq : WalkEvent.job q ∈ FTree.walk u)
    (ts : FForest) (r : String) :
    runArg cdc cfg forest sb fs arg =
      ([(arg, Except.error PErr.directoryNotRecursed)], fs)
    ∧ runArg cdc cfg2 forest sb fs2 arg2 =
        runWalkEvents cdc cfg2 sb fs2 (FTree.walk (forest arg2))
    ∧ FTree.walk t = (FTree.filePaths t).map WalkEvent.job
    ∧ (FTree.walk t).count (WalkEvent.job p) = (FTree.filePaths t).count p
    ∧ q ∈ FTree.filePaths u
    ∧ FForest.walkF (FForest.cons u ts) = FTree.walk u ++ FForest.walkF ts
    ∧ FTree.walk (FTree.dir r true ts) = [WalkEvent.errReport r] := by
  refine ⟨?_, ?_, walk_errFree t ht, ?_, walk_job_mem u q hq, rfl, rfl⟩
  · rw [runArg, if_neg hargne, hdir]
    simp only [hnr, Bool.false_eq_true, if_false]
  · rw [runArg, if_neg harg2, hdir2]
    simp only [hr2, if_true]
  · rw [walk_errFree t ht]
    exact List.count_map_of_injective (FTree.filePaths t) WalkEvent.job
      walkEvent_job_injective p

/-- C7 witness: a concrete directory "d" containing files and a faulty
subdirectory, run both without and with recursion. -/
theorem claim_C7_witness :
    runArg idCodec cfgZ
      (fun _ => FTree.dir "d" false
        (FForest.cons (FTree.file "d/x" false) FForest.nil)) []
      { entries := [("d", Entry.directory)], openFails := [], removeFails := [] }
      "d" =
      ([("d", Except.error PErr.directoryNotRecursed)],
        { entries := [("d", Entry.directory)], openFails := [], removeFails := [] })
    ∧ runArg idCodec { cfgZ with recursive := true }
      (fun _ => FTree.dir "d" false
        (FForest.cons (FTree.file "d/x" false) FForest.nil)) []
      { entries := [("d", Entry.directory)], openFails := [], removeFails := [] }
      "d" =
      runWalkEvents idCodec { cfgZ with recursive := true } []
        { entries := [("d", Entry.directory)], openFails := [], removeFails := [] }
        (FTree.walk ((fun _ => FTree.dir "d" false
          (FForest.cons (FTree.file "d/x" false) FForest.nil)) "d"))
    ∧ FTree.walk (FTree.dir "d" false
        (FForest.cons (FTree.file "d/x" false)
          (FForest.cons (FTree.dir "d/s" false
            (FForest.cons (FTree.file "d/s/y" false) FForest.nil)) FForest.nil))) =
      (FTree.filePaths (FTree.dir "d" false
        (FForest.cons (FTree.file "d/x" false)
          (FForest.cons (FTree.dir "d/s" false
            (FForest.cons (FTree.file "d/s/y" false) FForest.nil)) FForest.nil)))).map
        WalkEvent.job
    ∧ (FTree.walk (FTree.dir "d" false
        (FForest.cons (FTree.file "d/x" false)
          (FForest.cons (FTree.dir "d/s" false
            (FForest.cons (FTree.file "d/s/y" false) FForest.nil)) FForest.nil)))).count
        (WalkEvent.job "d/x") =
      (FTree.filePaths (FTree.dir "d" false
        (FForest.cons (FTree.file "d/x" false)
          (FForest.cons (FTree.dir "d/s" false
            (FForest.cons (FTree.file "d/s/y" false) FForest.nil)) FForest.nil)))).count
        "d/x"
    ∧ "d/z" ∈ FTree.filePaths (FTree.dir "d" false
        (FForest.cons (FTree.dir "d/bad" true
          (FForest.cons (FTree.file "d/bad/y" false) FForest.nil))
          (FForest.cons (FTree.file "d/z" false) FForest.nil)))
    ∧ FForest.walkF (FForest.cons
        (FTree.dir "d" false
          (FForest.cons (FTree.dir "d/bad" true
            (FForest.cons (FTree.file "d/bad/y" false) FForest.nil))
            (FForest.cons (FTree.file "d/z" false) FForest.nil)))
        FForest.nil) =
      FTree.walk (FTree.dir "d" false
        (FForest.cons (FTree.dir "d/bad" true
          (FForest.cons (FTree.file "d/bad/y" false) FForest.nil))
          (FForest.cons (FTree.file "d/z" false) FForest.nil))) ++
      FForest.walkF FForest.nil
    ∧ FTree.walk (FTree.dir "e" true FForest.nil) = [WalkEvent.errReport "e"] :=
  claim_C7_traversal idCodec cfgZ
    (fun _ => FTree.dir "d" false
      (FForest.cons (FTree.file "d/x" false) FForest.nil)) []
    { entries := [("d", Entry.directory)], openFails := [], removeFails := [] }
    "d" (by decide) (by decide) (by decide)
    { cfgZ with recursive := true } (by decide)
    { entries := [("d", Entry.directory)], openFails := [], removeFails := [] }
    "d" (by decide) (by decide)
    (FTree.dir "d" false
      (FForest.cons (FTree.file "d/x" false)
        (FForest.cons (FTree.dir "d/s" false
          (FForest.cons (FTree.file "d/s/y" false) FForest.nil)) FForest.nil)))
    (by rfl) "d/x"
    (FTree.dir "d" false
      (FForest.cons (FTree.dir "d/bad" true
        (FForest.cons (FTree.file "d/bad/y" false) FForest.nil))
        (FForest.cons (FTree.file "d/z" false) FForest.nil)))
    "d/z" (by simp [FTree.walk, FForest.walkF])
    FForest.nil "e"

/-- C8 (confirmed): the stdin marker with a derived-file destination
(stdout not set), outside test mode, fails immediately with the
reading-from-stdin error, the filesystem is unchanged, and the result is
the same for any stdin contents — no byte of standard input is read. -/
theorem claim_C8_stdin_derived (cdc : Codec) (cfg : Config) (fs : FS)
    (sb sb2 : List Nat)
    (hstd : cfg.stdout = false) (htest : cfg.test = false) :
    processFile cdc cfg sb fs "-" = (Except.error PErr.stdinNeedsStdout, fs)
    ∧ processFile cdc cfg sb2 fs "-" = (Except.error PErr.stdinNeedsStdout, fs) := by
  constructor <;>
  · rw [processFile, checkConflicts_of_not_stdout cfg hstd]
    simp only [htest, if_pos rfl, hstd]
    rfl

/-- C8 witness: the stdin marker under the default configuration, with
two different stdin contents. -/
theorem claim_C8_witness :
    processFile idCodec cfgZ [5] fsA "-" =
      (Except.error PErr.stdinNeedsStdout, fsA)
    ∧ processFile idCodec cfgZ [9, 9] fsA "-" =
      (Except.error PErr.stdinNeedsStdout, fsA) :=
  claim_C8_stdin_derived idCodec cfgZ fsA [5] [9, 9] (by decide) (by decide)

/-- C9 (confirmed): a decompress job whose stream is corrupt fails during
piping after `os.Create` has already created the destination; the
created output file is not deleted — it remains in the filesystem
(with the partial content written before the failure, modelled as the
empty created file). -/
theorem claim_C9_partial_output (cdc : Codec) (cfg : Config) (sb : List Nat)
    (fs : FS) (p out : String) (c : List Nat)
    (hstd : cfg.stdout = false) (htest : cfg.test = false)
    (hsuf : cfg.suffix ≠ "") (hp : p ≠ "-")
    (hsrc : fs.lookup p = some (Entry.regular c))
    (hopen : fs.openFails.contains p = false)
    (hder : deriveOutPath cfg.decompress cfg.suffix p = Except.ok out)
    (hout : fs.lookup out = none)
    (hdec : cfg.decompress = true) (hcorrupt : cdc.decode c = none) :
    processFile cdc cfg sb fs p =
      (Except.error PErr.pipeFailure, fs.insert out (Entry.regular []))
    ∧ (fs.insert out (Entry.regular [])).lookup out =
      some (Entry.regular []) := by
  have htr : transform cdc cfg c = Except.error PErr.pipeFailure := by
    rw [transform]
    simp only [hdec, if_true, hcorrupt]
  have h1 := processFile_resolve_ok cdc cfg sb fs fs p out
    (Entry.regular c) hstd htest hp hsrc (by simp)
    (resolveOut_ok cfg fs fs p out hsuf hder
      (collisionCheck_none cfg.force fs out hout))
  have h2 := pipeAndFinalize_pipe_error cdc cfg sb fs p out c
    PErr.pipeFailure (sourceBytes_file sb fs p c hp hopen hsrc) htr
  exact ⟨h1.trans h2, FS.lookup_insert_self fs out _⟩

/-- C9 witness: decompressing the corrupt "a.bz2" leaves the created
output "a" in place next to the source. -/
theorem claim_C9_witness :
    processFile badCodec cfgDz []
      { entries := [("a.bz2", Entry.regular [7])], openFails := [], removeFails := [] }
      "a.bz2" =
      (Except.error PErr.pipeFailure,
        FS.insert
          { entries := [("a.bz2", Entry.regular [7])], openFails := [], removeFails := [] }
          "a" (Entry.regular []))
    ∧ (FS.insert
        { entries := [("a.bz2", Entry.regular [7])], openFails := [], removeFails := [] }
        "a" (Entry.regular [])).lookup "a" = some (Entry.regular []) :=
  claim_C9_partial_output badCodec cfgDz []
    { entries := [("a.bz2", Entry.regular [7])], openFails := [], removeFails := [] }
    "a.bz2" "a" [7] (by decide) (by decide) (by decide) (by decide) (by decide)
    (by decide) (by decide) (by decide) (by decide) (by decide)

theorem checkConflicts_some (cfg : Config) (hstd : cfg.stdout = true)
    (hany : cfg.force = true ∨ cfg.keep = true ∨ cfg.sSetByUser = true) :
    ∃ e, checkConflicts cfg = some e ∧
      (e = PErr.stdoutSuffixConflict ∨ e = PErr.stdoutForceConflict ∨
        e = PErr.stdoutKeepConflict) := by
  rw [checkConflicts]
  by_cases hs : cfg.sSetByUser = true
  · refine ⟨PErr.stdoutSuffixConflict, ?_, Or.inl rfl⟩
    rw [if_pos (by rw [hstd, hs]; rfl)]
  · rw [Bool.not_eq_true] at hs
    by_cases hf : cfg.force = true
    · refine ⟨PErr.stdoutForceConflict, ?_, Or.inr (Or.inl rfl)⟩
      rw [if_neg (by rw [hs]; simp), if_pos (by rw [hstd, hf]; rfl)]
    · rw [Bool.not_eq_true] at hf
      have hk : cfg.keep = true := by
        rcases hany with h | h | h
        · rw [h] at hf; cases hf
        · exact h
        · rw [h] at hs; cases hs
      refine ⟨PErr.stdoutKeepConflict, ?_, Or.inr (Or.inr rfl)⟩
      rw [if_neg (by rw [hs]; simp), if_neg (by rw [hf]; simp),
        if_pos (by rw [hstd, hk]; rfl)]

/-- C10 (confirmed): when the stdout flag is combined with force, keep,
or an explicitly set suffix, `processFile` returns one of the three
conflicting-flags errors immediately: the filesystem is unchanged and
the result does not depend on the input bytes (nothing is opened,
created or read). -/
theorem claim_C10_conflicts (cdc : Codec) (cfg : Config) (fs : FS)
    (sb sb2 : List Nat) (p : String)
    (hstd : cfg.stdout = true)
    (hany : cfg.force = true ∨ cfg.keep = true ∨ cfg.sSetByUser = true) :
    (processFile cdc cfg sb fs p).2 = fs
    ∧ (∃ e, (processFile cdc cfg sb fs p).1 = Except.error e
        ∧ (e = PErr.stdoutSuffixConflict ∨ e = PErr.stdoutForceConflict ∨
           e = PErr.stdoutKeepConflict))
    ∧ processFile cdc cfg sb2 fs p = processFile cdc cfg sb fs p := by
  obtain ⟨e, he, hor⟩ := checkConflicts_some cfg hstd hany
  have h1 : processFile cdc cfg sb fs p = (Except.error e, fs) := by
    rw [processFile, he]
  have h2 : processFile cdc cfg sb2 fs p = (Except.error e, fs) := by
    rw [processFile, he]
  exact ⟨by rw [h1], ⟨e, by rw [h1], hor⟩, h2.trans h1.symm⟩

/-- C10 witness: stdout together with keep, on the one-file filesystem,
with two different stdin contents. -/
theorem claim_C10_witness :
    (processFile idCodec { cfgZ with stdout := true, keep := true } [] fsA "a").2 = fsA
    ∧ (∃ e, (processFile idCodec { cfgZ with stdout := true, keep := true } [] fsA "a").1 =
          Except.error e
        ∧ (e = PErr.stdoutSuffixConflict ∨ e = PErr.stdoutForceConflict ∨
           e = PErr.stdoutKeepConflict))
    ∧ processFile idCodec { cfgZ with stdout := true, keep := true } [3] fsA "a" =
      processFile idCodec { cfgZ with stdout := true, keep := true } [] fsA "a" :=
  claim_C10_conflicts idCodec { cfgZ with stdout := true, keep := true } fsA [] [3]
    "a" (by decide) (Or.inr (Or.inl (by decide)))
